import Mathlib

/-!
Shallow embedding of the WebSocket relay core in src/server/websocket.ts
(createWebSocketServer, handleSubscription, broadcastMessage), together with
the parts of the History Store interface (src/server/storage.ts, not present
under src/) that the relay calls, modelled from the spec.

JSON payloads are modelled structurally: a frame either parses to an object
(an ordered field list, the result of JSON.parse) or fails to parse.
Sends are recorded at the structured-payload level; JSON.stringify is applied
injectively at the transport boundary and is not re-modelled.  The two
asynchronous boundaries of the source — the connect-time
getChatHistory(deviceId).then(...) chain and the
`await saveChatMessage(deviceId, parsed.content)` inside the message handler —
are modelled as separate completion steps (stepHistoryDone, stepEchoDone), so
that registry changes can interleave with them exactly as the event loop
allows.
-/

/-- A JSON value as produced by JSON.parse. -/
inductive JVal where
  | str : String → JVal
  | num : Int → JVal
  | bool : Bool → JVal
  | null : JVal
  | arr : List JVal → JVal
  | obj : List (String × JVal) → JVal

/-- The field list of a parsed JSON object, in property order. -/
abbrev Obj := List (String × JVal)

/-- Connection handles (the ws objects) are identified by numbers. -/
abbrev ConnId := Nat

/-- Read a property of a JS object: first binding of the key, if any
(absent key reads as undefined, here none). -/
def getField : Obj → String → Option JVal
  | [], _ => none
  | (k, v) :: rest, key => if k = key then some v else getField rest key

/-- JS property assignment o.key = v (also the spread {...o, key: v}):
an existing key keeps its position and gets the new value, a new key is
appended at the end. -/
def setField : Obj → String → JVal → Obj
  | [], key, v => [(key, v)]
  | (k, w) :: rest, key, v =>
      if k = key then (key, v) :: rest else (k, w) :: setField rest key v

/-- Lookup in a JS Map (Map.prototype.get): the unique binding of the key.
The association list carries at most one binding per key in every reachable
state, so first-binding lookup is exact. -/
def mapGet [DecidableEq κ] : List (κ × α) → κ → Option α
  | [], _ => none
  | (k, v) :: rest, key => if k = key then some v else mapGet rest key

/-- Map.prototype.set: replace the binding in place, or append a new one. -/
def mapSet [DecidableEq κ] : List (κ × α) → κ → α → List (κ × α)
  | [], key, v => [(key, v)]
  | (k, w) :: rest, key, v =>
      if k = key then (key, v) :: rest else (k, w) :: mapSet rest key v

/-- Map.prototype.delete: remove the binding of the key, if present. -/
def mapDelete [DecidableEq κ] : List (κ × α) → κ → List (κ × α)
  | [], _ => []
  | (k, w) :: rest, key =>
      if k = key then rest else (k, w) :: mapDelete rest key

/-- ClientSession from websocket.ts: { ws, deviceId, userId? }. -/
structure Session where
  ws : ConnId
  deviceId : String
  userId : Option String := none
deriving DecidableEq

/-- WebSocket readyState constants of the ws library. -/
inductive ReadyState where
  | CONNECTING
  | OPEN
  | CLOSING
  | CLOSED
deriving DecidableEq

/-- Console output produced by the handlers, one entry per log call. -/
inductive LogEntry where
  | connected
  | received (parsed : Obj)
  | subscribedTo (channel : Option JVal)
  | unknownType (t : Option JVal)
  | handlingError
  | disconnected

/-- An asynchronous operation started by a handler and not yet completed:
the connect-time getChatHistory fetch, or a saveChatMessage append whose
continuation (the echo) runs on completion. -/
inductive PendingTask where
  | historyFetch (conn : ConnId) (deviceId : String)
  | chatAppend (deviceId : String) (parsed : Obj)

/-- State of one relay process: the session registry, the transport client
set with the readyState of each socket, the deviceId captured by each
handler closures of each connection, the History Store contents, the spawned
asynchronous operations, the trace of send() invocations, the console log,
the uuid source, and whether a promise rejection escaped every handler. -/
structure ServerState where
  activeSessions : List (String × Session)
  clients : List (ConnId × ReadyState)
  connDevice : List (ConnId × String)
  history : List (String × List (Option JVal))
  pending : List PendingTask
  outbox : List (ConnId × JVal)
  logs : List LogEntry
  uuidCtr : Nat
  unhandledRejection : Bool

/-- The empty relay process, before any connection. -/
def initState : ServerState :=
  { activeSessions := [], clients := [], connDevice := [], history := [],
    pending := [], outbox := [], logs := [], uuidCtr := 0,
    unhandledRejection := false }

/-- Successive results of uuidv4(): fresh, pairwise distinct identifiers. -/
def uuidGen (n : Nat) : String := "uuid-" ++ toString n

/-- The connection welcome event sent right after registration. -/
def connectionEvent (deviceId : String) : JVal :=
  .obj [("type", .str "connection"), ("deviceId", .str deviceId),
        ("message", .str "Connected to Ecosense WebSocket Server")]

/-- Modelled from the spec: append(identity, content) of the History Store
(saveChatMessage in src/server/storage.ts, which is not under src/).  Records
are kept per identity in insertion order; the content argument is passed
through unvalidated, so it may be absent (undefined). -/
def histAppend (h : List (String × List (Option JVal))) (d : String)
    (content : Option JVal) : List (String × List (Option JVal)) :=
  mapSet h d ((mapGet h d).getD [] ++ [content])

/-- Modelled from the spec: readAll(identity) of the History Store
(getChatHistory in src/server/storage.ts): the ordered records of the
identity, the empty sequence for an unknown identity. -/
def histRead (h : List (String × List (Option JVal))) (d : String) :
    List (Option JVal) :=
  (mapGet h d).getD []

/-- The history backfill event; a record with absent content serializes as
null inside the messages array. -/
def historyEvent (records : List (Option JVal)) : JVal :=
  .obj [("type", .str "history"),
        ("messages", .arr (records.map (fun r => r.getD .null)))]

/-- The confirmation sent by handleSubscription: { type: subscribed, channel }.
JSON.stringify drops the channel key when message.channel is undefined. -/
def subscribedEvent (channel : Option JVal) : JVal :=
  .obj (("type", .str "subscribed") ::
        (match channel with
         | some v => [("channel", v)]
         | none => []))

/-- The connection handler (wss.on connection, websocket.ts lines 21-44):
derive the deviceId from the sec-websocket-key header when it is a truthy
string and from uuidv4() otherwise (the || operator, so the empty string
also falls through to uuidv4), register the session, record the socket in
the client set, send the welcome event, and start the asynchronous history
fetch.  uuidv4() is invoked, consuming a fresh identifier, exactly when the
header is absent or empty. -/
def stepConnect (st : ServerState) (conn : ConnId) (key : Option String) :
    ServerState :=
  let fresh := uuidGen st.uuidCtr
  let deviceId :=
    match key with
    | some k => if k = "" then fresh else k
    | none => fresh
  let ctr :=
    match key with
    | some k => if k = "" then st.uuidCtr + 1 else st.uuidCtr
    | none => st.uuidCtr + 1
  { st with
    activeSessions := mapSet st.activeSessions deviceId
      { ws := conn, deviceId := deviceId, userId := none },
    clients := st.clients ++ [(conn, .OPEN)],
    connDevice := mapSet st.connDevice conn deviceId,
    logs := st.logs ++ [.connected],
    outbox := st.outbox ++ [(conn, connectionEvent deviceId)],
    pending := st.pending ++ [.historyFetch conn deviceId],
    uuidCtr := ctr }

/-- Completion of the connect-time getChatHistory(deviceId) promise
(websocket.ts lines 38-43).  On resolution the then-callback sends the
history event.  The chain attaches no rejection handler and no catch, so on
a storage read failure no handler runs, nothing is logged, and the rejection
is unhandled (with the Node default, that terminates the process). -/
def stepHistoryDone (st : ServerState) (conn : ConnId) (deviceId : String)
    (ok : Bool) : ServerState :=
  if ok then
    { st with outbox := st.outbox ++
        [(conn, historyEvent (histRead st.history deviceId))] }
  else
    { st with unhandledRejection := true }

/-- JS strict equality parsed.type === t for a string literal t: true
exactly when the type property holds that string. -/
def isType (parsed : Obj) (t : String) : Bool :=
  match getField parsed "type" with
  | some (.str s) => s == t
  | _ => false

/-- The message handler (ws.on message, websocket.ts lines 46-78) up to its
first asynchronous boundary.  payload is the JSON.parse result (none when
parsing throws; the try/catch then logs the error and drops the frame).
deviceId is the identity captured by the closure of this connection.  A chat
frame starts the awaited saveChatMessage call: the mutation of the store and
the echo happen at the completion step stepEchoDone.  A subscribe frame is
answered synchronously by handleSubscription; any other type is logged as
unrecognized. -/
def stepFrame (st : ServerState) (ws : ConnId) (deviceId : String)
    (payload : Option Obj) : ServerState :=
  match payload with
  | none => { st with logs := st.logs ++ [.handlingError] }
  | some o =>
    let parsed := setField o "deviceId" (.str deviceId)
    let st1 : ServerState := { st with logs := st.logs ++ [.received parsed] }
    if isType parsed "chat" then
      { st1 with pending := st1.pending ++ [.chatAppend deviceId parsed] }
    else if isType parsed "subscribe" then
      { st1 with
        logs := st1.logs ++ [.subscribedTo (getField parsed "channel")],
        outbox := st1.outbox ++ [(ws, subscribedEvent (getField parsed "channel"))] }
    else
      { st1 with logs := st1.logs ++ [.unknownType (getField parsed "type")] }

/-- Resumption of the message handler after
`await saveChatMessage(deviceId, parsed.content)` (websocket.ts lines 55-64).
On success the store has appended the content; the handler then looks the
deviceId up in activeSessions as they are now and, if a session is present,
sends it the stamped event spread together with a fresh
new Date().toISOString() timestamp; if the session is gone it sends nothing.
On failure the await throws into the catch, which logs; the store is
unchanged and no echo is sent. -/
def stepEchoDone (st : ServerState) (deviceId : String) (parsed : Obj)
    (ok : Bool) (ts : String) : ServerState :=
  if ok then
    let st1 : ServerState := { st with
      history := histAppend st.history deviceId (getField parsed "content") }
    match mapGet st1.activeSessions deviceId with
    | some target =>
        { st1 with outbox := st1.outbox ++
            [(target.ws, .obj (setField parsed "timestamp" (.str ts)))] }
    | none => st1
  else
    { st with logs := st.logs ++ [.handlingError] }

/-- The close handler (websocket.ts lines 81-84): the socket leaves the
transport client set and the registry entry of the deviceId captured at
connect time is deleted. -/
def stepDisconnect (st : ServerState) (conn : ConnId) (deviceId : String) :
    ServerState :=
  { st with
    clients := mapDelete st.clients conn,
    activeSessions := mapDelete st.activeSessions deviceId,
    logs := st.logs ++ [.disconnected] }

/-- broadcastMessage (websocket.ts lines 111-117): iterate wss.clients and
send the serialized message to every socket whose readyState is OPEN. -/
def broadcastMessage (clients : List (ConnId × ReadyState)) (message : JVal) :
    List (ConnId × JVal) :=
  clients.foldl
    (fun sent client =>
      if client.2 = ReadyState.OPEN then sent ++ [(client.1, message)]
      else sent)
    []

/-- Registry contents reachable through the operations the source performs
on activeSessions: Map.set at connect and Map.delete at close, starting from
the empty map. -/
inductive RegReach : List (String × Session) → Prop where
  | init : RegReach []
  | register (d : String) (s : Session) {m : List (String × Session)} :
      RegReach m → RegReach (mapSet m d s)
  | remove (d : String) {m : List (String × Session)} :
      RegReach m → RegReach (mapDelete m d)

/-! Helper lemmas about object fields and map operations. -/

theorem getField_setField_self (k : String) (v : JVal) (o : Obj) :
    getField (setField o k v) k = some v := by
  induction o with
  | nil => simp [setField, getField]
  | cons p rest ih =>
      obtain ⟨a, w⟩ := p
      by_cases hak : a = k
      · subst hak
        simp [setField, getField]
      · simp [setField, getField, hak, ih]

theorem getField_setField_ne (k k' : String) (v : JVal) (h : k' ≠ k)
    (o : Obj) : getField (setField o k v) k' = getField o k' := by
  induction o with
  | nil => simp [setField, getField, Ne.symm h]
  | cons p rest ih =>
      obtain ⟨a, w⟩ := p
      by_cases hak : a = k
      · subst hak
        simp [setField, getField, Ne.symm h]
      · simp only [setField, if_neg hak, getField]
        rw [ih]

theorem isType_setField_deviceId (o : Obj) (d t : String) :
    isType (setField o "deviceId" (.str d)) t = isType o t := by
  unfold isType
  rw [getField_setField_ne _ _ _ (by decide)]

theorem mapGet_mapSet_self [DecidableEq κ] (k : κ) (v : α)
    (m : List (κ × α)) : mapGet (mapSet m k v) k = some v := by
  induction m with
  | nil => simp [mapSet, mapGet]
  | cons p rest ih =>
      obtain ⟨a, w⟩ := p
      by_cases hak : a = k
      · subst hak
        simp [mapSet, mapGet]
      · simp [mapSet, mapGet, hak, ih]

theorem mapGet_mapSet_ne [DecidableEq κ] (k k' : κ) (v : α) (h : k' ≠ k)
    (m : List (κ × α)) : mapGet (mapSet m k v) k' = mapGet m k' := by
  induction m with
  | nil => simp [mapSet, mapGet, Ne.symm h]
  | cons p rest ih =>
      obtain ⟨a, w⟩ := p
      by_cases hak : a = k
      · subst hak
        simp [mapSet, mapGet, Ne.symm h]
      · simp only [mapSet, if_neg hak, mapGet]
        rw [ih]

theorem mapGet_mapDelete_ne [DecidableEq κ] (k k' : κ) (h : k' ≠ k)
    (m : List (κ × α)) : mapGet (mapDelete m k) k' = mapGet m k' := by
  induction m with
  | nil => simp [mapDelete]
  | cons p rest ih =>
      obtain ⟨a, w⟩ := p
      by_cases hak : a = k
      · subst hak
        simp [mapDelete, mapGet, Ne.symm h]
      · simp only [mapDelete, if_neg hak, mapGet]
        rw [ih]

theorem mapDelete_absent [DecidableEq κ] (k : κ) (m : List (κ × α))
    (h : mapGet m k = none) : mapDelete m k = m := by
  induction m with
  | nil => rfl
  | cons p rest ih =>
      obtain ⟨a, w⟩ := p
      by_cases hak : a = k
      · subst hak
        simp [mapGet] at h
      · simp only [mapGet, if_neg hak] at h
        simp [mapDelete, hak, ih h]

theorem mapSet_cons_pos [DecidableEq κ] {b k : κ} (w v : α)
    (rest : List (κ × α)) (h : b = k) :
    mapSet ((b, w) :: rest) k v = (k, v) :: rest := by
  simp [mapSet, h]

theorem mapSet_cons_neg [DecidableEq κ] {b k : κ} (w v : α)
    (rest : List (κ × α)) (h : ¬b = k) :
    mapSet ((b, w) :: rest) k v = (b, w) :: mapSet rest k v := by
  simp [mapSet, h]

theorem mem_keys_mapSet [DecidableEq κ] (k a : κ) (v : α)
    (m : List (κ × α)) (h : a ∈ (mapSet m k v).map Prod.fst) :
    a ∈ m.map Prod.fst ∨ a = k := by
  induction m with
  | nil =>
      simp only [mapSet, List.map_cons, List.map_nil,
        List.mem_singleton] at h
      exact Or.inr h
  | cons p rest ih =>
      obtain ⟨b, w⟩ := p
      by_cases hbk : b = k
      · rw [mapSet_cons_pos w v rest hbk] at h
        simp only [List.map_cons, List.mem_cons] at h ⊢
        rcases h with h | h
        · exact Or.inr h
        · exact Or.inl (Or.inr h)
      · rw [mapSet_cons_neg w v rest hbk] at h
        simp only [List.map_cons, List.mem_cons] at h ⊢
        rcases h with h | h
        · exact Or.inl (Or.inl h)
        · rcases ih h with h' | h'
          · exact Or.inl (Or.inr h')
          · exact Or.inr h'

theorem nodupKeys_mapSet [DecidableEq κ] (k : κ) (v : α)
    (m : List (κ × α)) (h : (m.map Prod.fst).Nodup) :
    ((mapSet m k v).map Prod.fst).Nodup := by
  induction m with
  | nil => simp [mapSet]
  | cons p rest ih =>
      obtain ⟨b, w⟩ := p
      simp only [List.map_cons, List.nodup_cons] at h
      obtain ⟨hb, hrest⟩ := h
      by_cases hbk : b = k
      · rw [mapSet_cons_pos w v rest hbk]
        simp only [List.map_cons, List.nodup_cons]
        exact ⟨hbk ▸ hb, hrest⟩
      · rw [mapSet_cons_neg w v rest hbk]
        simp only [List.map_cons, List.nodup_cons]
        refine ⟨fun hmem => ?_, ih hrest⟩
        rcases mem_keys_mapSet k b v rest hmem with h' | h'
        · exact hb h'
        · exact hbk h'

theorem mapDelete_sublist [DecidableEq κ] (k : κ) (m : List (κ × α)) :
    (mapDelete m k).Sublist m := by
  induction m with
  | nil => simp [mapDelete]
  | cons p rest ih =>
      obtain ⟨b, w⟩ := p
      by_cases hbk : b = k
      · rw [show mapDelete ((b, w) :: rest) k = rest from by
          simp [mapDelete, hbk]]
        exact List.sublist_cons_self (b, w) rest
      · rw [show mapDelete ((b, w) :: rest) k = (b, w) :: mapDelete rest k
          from by simp [mapDelete, hbk]]
        exact List.Sublist.cons₂ (b, w) ih

theorem nodupKeys_mapDelete [DecidableEq κ] (k : κ)
    (m : List (κ × α)) (h : (m.map Prod.fst).Nodup) :
    ((mapDelete m k).map Prod.fst).Nodup :=
  h.sublist ((mapDelete_sublist k m).map Prod.fst)

theorem regReach_nodupKeys {m : List (String × Session)} (h : RegReach m) :
    (m.map Prod.fst).Nodup := by
  induction h with
  | init => simp
  | register d s _ ih => exact nodupKeys_mapSet d s _ ih
  | remove d _ ih => exact nodupKeys_mapDelete d _ ih

theorem filter_key_eq_nil (k : String) (m : List (String × Session))
    (h : k ∉ m.map Prod.fst) : m.filter (fun p => p.1 == k) = [] := by
  induction m with
  | nil => rfl
  | cons p rest ih =>
      obtain ⟨b, w⟩ := p
      simp only [List.map_cons, List.mem_cons] at h
      push_neg at h
      obtain ⟨hbk, hrest⟩ := h
      have hb : (b == k) = false := by
        simp only [beq_eq_false_iff_ne]
        exact fun e => hbk e.symm
      simp [List.filter, hb, ih hrest]

theorem length_filter_key_le_one (k : String) (m : List (String × Session))
    (h : (m.map Prod.fst).Nodup) :
    (m.filter (fun p => p.1 == k)).length ≤ 1 := by
  induction m with
  | nil => simp
  | cons p rest ih =>
      obtain ⟨b, w⟩ := p
      simp only [List.map_cons, List.nodup_cons] at h
      obtain ⟨hb, hrest⟩ := h
      by_cases hbk : b = k
      · subst hbk
        simp [List.filter, filter_key_eq_nil b rest hb]
      · have hbf : (b == k) = false := by
          simp only [beq_eq_false_iff_ne]
          exact hbk
        simp only [List.filter, hbf]
        exact ih hrest

/-! Concrete fixtures used by witnesses and counterexamples. -/

/-- A chat event carrying a spoofed client-side deviceId. -/
def demoChat : Obj :=
  [("type", .str "chat"), ("content", .str "hi"), ("deviceId", .str "spoof")]

/-- demoChat after the server stamps its own identity. -/
def demoStamped : Obj :=
  [("type", .str "chat"), ("content", .str "hi"), ("deviceId", .str "srv")]

/-- Two connections that present the same handshake key: the second
registration overwrites the first in the session registry. -/
def twoConnState : ServerState :=
  stepConnect (stepConnect initState 0 (some "shared")) 1 (some "shared")

/-- A chat event without a client deviceId field, as sent on the shared
identity. -/
def sharedChat : Obj := [("type", .str "chat"), ("content", .str "hi")]

/-- sharedChat stamped with the shared identity. -/
def sharedStamped : Obj :=
  [("type", .str "chat"), ("content", .str "hi"), ("deviceId", .str "shared")]

/-! Claim theorems. -/

/-- C1: for a chat event the router first overwrites any client-supplied
deviceId with the server-assigned identity, then starts the awaited History
Store append of the event content keyed by that identity without sending
anything yet; when the append completes it looks the identity up in the
session registry and, if an entry is present, sends the connection of that entry
the full stamped event augmented with the server timestamp, and if the
entry is absent it sends nothing. -/
theorem chat_stamp_append_then_echo (st : ServerState) (ws : ConnId)
    (d : String) (o : Obj) (hty : isType o "chat" = true) :
    getField (setField o "deviceId" (.str d)) "deviceId" = some (.str d)
    ∧ stepFrame st ws d (some o) =
        { st with
          logs := st.logs ++ [.received (setField o "deviceId" (.str d))],
          pending := st.pending ++
            [.chatAppend d (setField o "deviceId" (.str d))] }
    ∧ (∀ (st2 : ServerState) (ts : String) (s : Session),
        mapGet st2.activeSessions d = some s →
        stepEchoDone st2 d (setField o "deviceId" (.str d)) true ts =
          { st2 with
            history := histAppend st2.history d
              (getField (setField o "deviceId" (.str d)) "content"),
            outbox := st2.outbox ++
              [(s.ws, .obj (setField (setField o "deviceId" (.str d))
                  "timestamp" (.str ts)))] })
    ∧ (∀ (st2 : ServerState) (ts : String),
        mapGet st2.activeSessions d = none →
        stepEchoDone st2 d (setField o "deviceId" (.str d)) true ts =
          { st2 with
            history := histAppend st2.history d
              (getField (setField o "deviceId" (.str d)) "content") }) := by
  refine ⟨getField_setField_self "deviceId" (.str d) o, ?_, ?_, ?_⟩
  · simp [stepFrame, isType_setField_deviceId, hty]
  · intro st2 ts s hs
    simp [stepEchoDone, hs]
  · intro st2 ts hs
    simp [stepEchoDone, hs]

/-- Witness for C1: the spoofed deviceId is overwritten, the append task is
spawned for the server identity, the echo reaches the registered session,
and with an empty registry nothing is sent. -/
theorem chat_stamp_append_then_echo_witness :
    getField (setField demoChat "deviceId" (.str "srv")) "deviceId"
      = some (.str "srv")
    ∧ (stepFrame initState 7 "srv" (some demoChat)).pending
      = [PendingTask.chatAppend "srv" demoStamped]
    ∧ (stepEchoDone (stepConnect initState 3 (some "srv")) "srv"
        (setField demoChat "deviceId" (.str "srv")) true "TS").outbox
      = (stepConnect initState 3 (some "srv")).outbox ++
        [(3, .obj (setField (setField demoChat "deviceId" (.str "srv"))
            "timestamp" (.str "TS")))]
    ∧ (stepEchoDone initState "srv"
        (setField demoChat "deviceId" (.str "srv")) true "TS").outbox = [] := by
  have h := chat_stamp_append_then_echo initState 7 "srv" demoChat rfl
  refine ⟨h.1, ?_, ?_, ?_⟩
  · rw [h.2.1]
    rfl
  · have h2 := h.2.2.1 (stepConnect initState 3 (some "srv")) "TS"
      { ws := 3, deviceId := "srv", userId := none } rfl
    rw [h2]
  · have h3 := h.2.2.2 initState "TS" rfl
    rw [h3]
    rfl

/-- C2 counterexample: after connection 0 and then connection 1 present the
same handshake key, both connections are simultaneously open, a chat frame
arrives on connection 0, and the resulting echo send goes to connection 1 —
so the echo of the message received on connection 0 is delivered to a
different open connection, refuting that the echo is delivered only to the
connection that sent it. -/
theorem echo_delivered_to_other_connection :
    twoConnState.clients = [(0, ReadyState.OPEN), (1, ReadyState.OPEN)]
    ∧ twoConnState.activeSessions
      = [("shared", { ws := 1, deviceId := "shared", userId := none })]
    ∧ (stepEchoDone (stepFrame twoConnState 0 "shared" (some sharedChat))
        "shared" sharedStamped true "TS").outbox
      = [(0, connectionEvent "shared"), (1, connectionEvent "shared"),
         (1, .obj (setField sharedStamped "timestamp" (.str "TS")))] :=
  ⟨rfl, rfl, rfl⟩

/-- C2 (amended): the echo of a chat event from identity d is sent to the
connection handle currently registered under d in the session registry, or
skipped when none is registered; a connection that is not the currently
registered handle for d — in particular any connection registered under a
different identity — receives nothing from the echo step. -/
theorem echo_only_to_registered_handle (st : ServerState) (d : String)
    (parsed : Obj) (ts : String) (b : ConnId) :
    (∀ s : Session, mapGet st.activeSessions d = some s →
      (stepEchoDone st d parsed true ts).outbox =
        st.outbox ++ [(s.ws, .obj (setField parsed "timestamp" (.str ts)))])
    ∧ ((∀ s : Session, mapGet st.activeSessions d = some s → s.ws ≠ b) →
        (stepEchoDone st d parsed true ts).outbox.filter (fun p => p.1 == b)
          = st.outbox.filter (fun p => p.1 == b)) := by
  constructor
  · intro s hs
    simp [stepEchoDone, hs]
  · intro hb
    rcases hgs : mapGet st.activeSessions d with _ | s
    · simp [stepEchoDone, hgs]
    · have hws : (s.ws == b) = false := by
        simp only [beq_eq_false_iff_ne]
        exact hb s hgs
      simp [stepEchoDone, hgs, List.filter_append, hws]

/-- Witness for C2 (amended): with connection 5 registered under identity
d, the echo goes to connection 5 and the messages of connection 3 are
untouched. -/
theorem echo_only_to_registered_handle_witness :
    (stepEchoDone (stepConnect initState 5 (some "d")) "d" demoStamped
        true "TS").outbox
      = (stepConnect initState 5 (some "d")).outbox ++
        [(5, .obj (setField demoStamped "timestamp" (.str "TS")))]
    ∧ (stepEchoDone (stepConnect initState 5 (some "d")) "d" demoStamped
        true "TS").outbox.filter (fun p => p.1 == 3)
      = (stepConnect initState 5 (some "d")).outbox.filter
          (fun p => p.1 == 3) := by
  have h := echo_only_to_registered_handle
    (stepConnect initState 5 (some "d")) "d" demoStamped "TS" 3
  refine ⟨h.1 { ws := 5, deviceId := "d", userId := none } rfl, h.2 ?_⟩
  intro s hs
  injection hs with h5
  rw [← h5]
  decide

/-- C3: the claim fails on the code.  The connect-time history read
getChatHistory(deviceId).then(...) attaches no rejection handler, so a
storage failure during that read is an unhandled promise rejection: nothing
is logged inside the handler of the connection and, with the Node default
behavior, the relay process terminates.  This theorem evaluates the model
at the failing input: after a connect, a failed history-read completion
raises the unhandled-rejection flag while leaving the log untouched; a
failed chat append, by contrast, is caught and logged by the try/catch of
the message handler, with no echo and no rejection escaping. -/
theorem history_read_failure_unhandled :
    (stepHistoryDone (stepConnect initState 0 (some "k")) 0 "k"
        false).unhandledRejection = true
    ∧ (stepHistoryDone (stepConnect initState 0 (some "k")) 0 "k" false).logs
      = (stepConnect initState 0 (some "k")).logs
    ∧ (stepHistoryDone (stepConnect initState 0 (some "k")) 0 "k" false).outbox
      = (stepConnect initState 0 (some "k")).outbox
    ∧ (stepEchoDone (stepConnect initState 0 (some "k")) "k" demoStamped
        false "TS").logs
      = (stepConnect initState 0 (some "k")).logs ++ [.handlingError]
    ∧ (stepEchoDone (stepConnect initState 0 (some "k")) "k" demoStamped
        false "TS").unhandledRejection = false
    ∧ (stepEchoDone (stepConnect initState 0 (some "k")) "k" demoStamped
        false "TS").outbox
      = (stepConnect initState 0 (some "k")).outbox :=
  ⟨rfl, rfl, rfl, rfl, rfl, rfl⟩

/-- C4: an unparseable frame is logged and dropped: no outbound event, no
registry, history or pending mutation, the connection stays in the client
set, no rejection escapes, and a subsequent well-formed frame on the same
connection produces exactly the sends, appends and registry effects it
would have produced without the malformed frame. -/
theorem malformed_frame_logged_and_dropped (st : ServerState) (ws : ConnId)
    (d : String) :
    (stepFrame st ws d none).logs = st.logs ++ [.handlingError]
    ∧ (stepFrame st ws d none).outbox = st.outbox
    ∧ (stepFrame st ws d none).activeSessions = st.activeSessions
    ∧ (stepFrame st ws d none).history = st.history
    ∧ (stepFrame st ws d none).pending = st.pending
    ∧ (stepFrame st ws d none).clients = st.clients
    ∧ (stepFrame st ws d none).unhandledRejection = st.unhandledRejection
    ∧ (∀ o : Obj,
        (stepFrame (stepFrame st ws d none) ws d (some o)).outbox
          = (stepFrame st ws d (some o)).outbox
        ∧ (stepFrame (stepFrame st ws d none) ws d (some o)).pending
          = (stepFrame st ws d (some o)).pending
        ∧ (stepFrame (stepFrame st ws d none) ws d (some o)).activeSessions
          = (stepFrame st ws d (some o)).activeSessions) := by
  refine ⟨rfl, rfl, rfl, rfl, rfl, rfl, rfl, ?_⟩
  intro o
  by_cases h1 : isType (setField o "deviceId" (.str d)) "chat" = true
  · simp [stepFrame, h1]
  · by_cases h2 : isType (setField o "deviceId" (.str d)) "subscribe" = true
    · simp [stepFrame, h1, h2]
    · simp [stepFrame, h1, h2]

/-- C5 counterexample: broadcast iterates the transport client set, not the
session registry.  After two connections presented the same handshake key,
the registry holds exactly one session (bound to connection 1), yet a
broadcast is sent to both open connections 0 and 1 — the recipient set is
not the set of sessions currently in the registry. -/
theorem broadcast_not_limited_to_registry :
    twoConnState.activeSessions
      = [("shared", { ws := 1, deviceId := "shared", userId := none })]
    ∧ broadcastMessage twoConnState.clients (.str "m")
      = [(0, .str "m"), (1, .str "m")] :=
  ⟨rfl, rfl⟩

/-- C5 (amended): broadcastMessage sends one message to exactly the
connections in the transport server client set whose readyState is OPEN —
skipping non-open connections without error — delivering the same message
value to each; with three open and one closed connection exactly the three
open ones receive it. -/
theorem broadcast_to_open_clients (clients : List (ConnId × ReadyState))
    (m : JVal) :
    broadcastMessage clients m
      = (clients.filter (fun c => c.2 == ReadyState.OPEN)).map
          (fun c => (c.1, m))
    ∧ broadcastMessage
        [(0, .OPEN), (1, .OPEN), (2, .OPEN), (3, .CLOSED)] m
      = [(0, m), (1, m), (2, m)] := by
  have key : ∀ (cl : List (ConnId × ReadyState))
      (acc : List (ConnId × JVal)),
      cl.foldl (fun sent client =>
          if client.2 = ReadyState.OPEN then sent ++ [(client.1, m)]
          else sent) acc
        = acc ++ (cl.filter (fun c => c.2 == ReadyState.OPEN)).map
            (fun c => (c.1, m)) := by
    intro cl
    induction cl with
    | nil => intro acc; simp
    | cons c rest ih =>
        intro acc
        by_cases hc : c.2 = ReadyState.OPEN
        · simp [List.foldl_cons, hc, List.filter_cons, ih,
            List.append_assoc]
        · simp [List.foldl_cons, hc, List.filter_cons, ih]
  constructor
  · exact key clients []
  · rfl

/-- Read a named field of an outbound object event. -/
def eventField (e : JVal) (k : String) : Option JVal :=
  match e with
  | .obj fields => getField fields k
  | _ => none

/-- C6: the registry keeps at most one connection handle per identity in
every reachable state; registering an already-present identity overwrites
the earlier mapping last-writer-wins without closing or evicting the stale
connection handle (connecting only appends the new socket to the client
set, leaving every existing socket untouched); and removal on close deletes
at most the one entry of the captured identity, is a no-op for an absent
identity, and leaves the mapping of every other identity intact. -/
theorem registry_last_writer_wins {m : List (String × Session)}
    (hm : RegReach m) :
    (∀ d : String, (m.filter (fun p => p.1 == d)).length ≤ 1)
    ∧ (∀ (d : String) (s : Session),
        mapGet (mapSet m d s) d = some s
        ∧ ∀ d' : String, d' ≠ d → mapGet (mapSet m d s) d' = mapGet m d')
    ∧ (∀ d : String, mapGet m d = none → mapDelete m d = m)
    ∧ (∀ d d' : String, d' ≠ d → mapGet (mapDelete m d) d' = mapGet m d')
    ∧ (∀ (st : ServerState) (c : ConnId) (k : Option String),
        (stepConnect st c k).clients = st.clients ++ [(c, .OPEN)])
    ∧ (∀ (st : ServerState) (c : ConnId) (dd : String),
        (stepDisconnect st c dd).activeSessions
          = mapDelete st.activeSessions dd) :=
  ⟨fun d => length_filter_key_le_one d m (regReach_nodupKeys hm),
   fun d s => ⟨mapGet_mapSet_self d s m,
     fun d' hd => mapGet_mapSet_ne d d' s hd m⟩,
   fun d => mapDelete_absent d m,
   fun d d' hd => mapGet_mapDelete_ne d d' hd m,
   fun _ _ _ => rfl,
   fun _ _ _ => rfl⟩

/-- Witness for C6 at the reachable one-entry registry: its key count is at
most one, and re-registering the identity yields the new handle. -/
theorem registry_last_writer_wins_witness :
    (((mapSet ([] : List (String × Session)) "a"
        { ws := 1, deviceId := "a", userId := none }).filter
        (fun p => p.1 == "a")).length ≤ 1)
    ∧ mapGet (mapSet (mapSet ([] : List (String × Session)) "a"
        { ws := 1, deviceId := "a", userId := none }) "a"
        { ws := 2, deviceId := "a", userId := none }) "a"
      = some { ws := 2, deviceId := "a", userId := none } := by
  have h := registry_last_writer_wins
    (RegReach.register "a" { ws := 1, deviceId := "a", userId := none }
      RegReach.init)
  exact ⟨h.1 "a", (h.2.1 "a" { ws := 2, deviceId := "a", userId := none }).1⟩

/-- C7: for a connection whose transport supplies a nonempty handshake key,
the identity is that key: the welcome event carries it as deviceId, the
session is registered under it, the history fetch is keyed by it, and the
captured identity of the connection — the one every later frame dispatch,
append and echo lookup uses — equals it and is never changed by any later
step; with no handshake key the identity is instead the freshly synthesized
identifier. -/
theorem identity_assignment (st : ServerState) (c : ConnId) (k : String)
    (hk : k ≠ "") :
    eventField (connectionEvent k) "deviceId" = some (.str k)
    ∧ (stepConnect st c (some k)).outbox
      = st.outbox ++ [(c, connectionEvent k)]
    ∧ mapGet (stepConnect st c (some k)).activeSessions k
      = some { ws := c, deviceId := k, userId := none }
    ∧ (stepConnect st c (some k)).pending
      = st.pending ++ [.historyFetch c k]
    ∧ mapGet (stepConnect st c (some k)).connDevice c = some k
    ∧ (∀ (st₂ : ServerState) (w : ConnId) (dd : String) (p : Option Obj),
        (stepFrame st₂ w dd p).connDevice = st₂.connDevice)
    ∧ (∀ (st₂ : ServerState) (dd : String) (o : Obj) (b : Bool)
        (ts : String),
        (stepEchoDone st₂ dd o b ts).connDevice = st₂.connDevice)
    ∧ (∀ (st₂ : ServerState) (w : ConnId) (dd : String) (b : Bool),
        (stepHistoryDone st₂ w dd b).connDevice = st₂.connDevice)
    ∧ mapGet (stepConnect st c none).connDevice c
      = some (uuidGen st.uuidCtr) := by
  refine ⟨rfl, ?_, ?_, ?_, ?_, ?_, ?_, ?_, ?_⟩
  · simp [stepConnect, hk]
  · simp [stepConnect, hk, mapGet_mapSet_self]
  · simp [stepConnect, hk]
  · simp [stepConnect, hk, mapGet_mapSet_self]
  · intro st₂ w dd p
    rcases p with _ | o
    · rfl
    · by_cases h1 : isType (setField o "deviceId" (.str dd)) "chat" = true
      · simp [stepFrame, h1]
      · by_cases h2 :
            isType (setField o "deviceId" (.str dd)) "subscribe" = true
        · simp [stepFrame, h1, h2]
        · simp [stepFrame, h1, h2]
  · intro st₂ dd o b ts
    rcases b with _ | _
    · rfl
    · rcases hgs : mapGet st₂.activeSessions dd with _ | s
      · simp [stepEchoDone, hgs]
      · simp [stepEchoDone, hgs]
  · intro st₂ w dd b
    rcases b with _ | _ <;> rfl
  · simp [stepConnect, mapGet_mapSet_self]

/-- Witness for C7 at the key alpha on a fresh relay. -/
theorem identity_assignment_witness :
    (stepConnect initState 0 (some "alpha")).outbox
      = initState.outbox ++ [(0, connectionEvent "alpha")]
    ∧ mapGet (stepConnect initState 0 (some "alpha")).activeSessions "alpha"
      = some { ws := 0, deviceId := "alpha", userId := none }
    ∧ (stepConnect initState 0 (some "alpha")).pending
      = initState.pending ++ [.historyFetch 0 "alpha"]
    ∧ mapGet (stepConnect initState 0 (some "alpha")).connDevice 0
      = some "alpha" := by
  have h := identity_assignment initState 0 "alpha" (by decide)
  exact ⟨h.2.1, h.2.2.1, h.2.2.2.1, h.2.2.2.2.1⟩

/-- C8: an inbound event whose type is absent or anything other than chat
and subscribe is only logged: the resulting state is unchanged except for
the two log lines (received and unrecognized type), so no outbound event is
sent, no History Store append is started, and the session registry is left
unchanged. -/
theorem unknown_type_only_logged (st : ServerState) (ws : ConnId)
    (d : String) (o : Obj) (hchat : isType o "chat" = false)
    (hsub : isType o "subscribe" = false) :
    stepFrame st ws d (some o) =
      { st with logs := st.logs ++
          [.received (setField o "deviceId" (.str d)),
           .unknownType (getField o "type")] } := by
  have h1 : isType (setField o "deviceId" (.str d)) "chat" = false := by
    rw [isType_setField_deviceId]; exact hchat
  have h2 : isType (setField o "deviceId" (.str d)) "subscribe" = false := by
    rw [isType_setField_deviceId]; exact hsub
  simp [stepFrame, h1, h2,
    getField_setField_ne "deviceId" "type" (.str d) (by decide) o]

/-- Witness for C8 at a ping event. -/
theorem unknown_type_only_logged_witness :
    stepFrame initState 2 "dev" (some [("type", .str "ping")]) =
      { initState with logs := initState.logs ++
          [.received [("type", .str "ping"), ("deviceId", .str "dev")],
           .unknownType (some (.str "ping"))] } :=
  unknown_type_only_logged initState 2 "dev" [("type", .str "ping")] rfl rfl

/-- C9: a connection whose handshake key is the empty string behaves
exactly like one with no key at all: the whole resulting state coincides,
the identity assigned to the connection is the freshly synthesized
identifier — which is never the empty string — and the identifier source
advances. -/
theorem empty_key_same_as_absent (st : ServerState) (c : ConnId) :
    stepConnect st c (some "") = stepConnect st c none
    ∧ mapGet (stepConnect st c (some "")).connDevice c
      = some (uuidGen st.uuidCtr)
    ∧ uuidGen st.uuidCtr ≠ ""
    ∧ (stepConnect st c (some "")).uuidCtr = st.uuidCtr + 1 := by
  refine ⟨rfl, ?_, ?_, rfl⟩
  · simp [stepConnect, mapGet_mapSet_self]
  · intro hcontra
    have hlen : (uuidGen st.uuidCtr).length = 0 := by rw [hcontra]; rfl
    rw [uuidGen, String.length_append] at hlen
    have hfive : ("uuid-" : String).length = 5 := rfl
    omega

/-- C10: a chat event with no content field is dispatched without any
validation: the append task is spawned with the absent content, the store
receives a record with absent content, and the echo is still sent to the
registered session. -/
theorem chat_without_content (st : ServerState) (ws : ConnId) (d : String)
    (o : Obj) (hty : isType o "chat" = true)
    (hc : getField o "content" = none) :
    getField (setField o "deviceId" (.str d)) "content" = none
    ∧ (stepFrame st ws d (some o)).pending
      = st.pending ++ [.chatAppend d (setField o "deviceId" (.str d))]
    ∧ (∀ (st2 : ServerState) (ts : String),
        mapGet (stepEchoDone st2 d (setField o "deviceId" (.str d))
            true ts).history d
          = some (histRead st2.history d ++ [none]))
    ∧ (∀ (st2 : ServerState) (ts : String) (s : Session),
        mapGet st2.activeSessions d = some s →
        (stepEchoDone st2 d (setField o "deviceId" (.str d)) true ts).outbox
          = st2.outbox ++ [(s.ws, .obj (setField
              (setField o "deviceId" (.str d)) "timestamp" (.str ts)))]) := by
  have hc' : getField (setField o "deviceId" (.str d)) "content" = none := by
    rw [getField_setField_ne "deviceId" "content" (.str d) (by decide) o]
    exact hc
  refine ⟨hc', ?_, ?_, ?_⟩
  · have h1 : isType (setField o "deviceId" (.str d)) "chat" = true := by
      rw [isType_setField_deviceId]; exact hty
    simp [stepFrame, h1]
  · intro st2 ts
    rcases hgs : mapGet st2.activeSessions d with _ | s
    · simp [stepEchoDone, hgs, hc', histAppend, histRead, mapGet_mapSet_self]
    · simp [stepEchoDone, hgs, hc', histAppend, histRead, mapGet_mapSet_self]
  · intro st2 ts s hs
    simp [stepEchoDone, hs]

/-- Witness for C10 at a content-free chat event with a registered session. -/
theorem chat_without_content_witness :
    getField (setField [("type", .str "chat")] "deviceId" (.str "dv"))
        "content" = none
    ∧ (stepFrame initState 4 "dv" (some [("type", .str "chat")])).pending
      = initState.pending ++ [.chatAppend "dv"
          (setField [("type", .str "chat")] "deviceId" (.str "dv"))]
    ∧ mapGet (stepEchoDone (stepConnect initState 4 (some "dv")) "dv"
        (setField [("type", .str "chat")] "deviceId" (.str "dv"))
        true "TS").history "dv"
      = some (histRead (stepConnect initState 4 (some "dv")).history "dv"
          ++ [none])
    ∧ (stepEchoDone (stepConnect initState 4 (some "dv")) "dv"
        (setField [("type", .str "chat")] "deviceId" (.str "dv"))
        true "TS").outbox
      = (stepConnect initState 4 (some "dv")).outbox ++
        [(4, .obj (setField (setField [("type", .str "chat")] "deviceId"
            (.str "dv")) "timestamp" (.str "TS")))] := by
  have h := chat_without_content initState 4 "dv" [("type", .str "chat")]
    rfl rfl
  exact ⟨h.1, h.2.1, h.2.2.1 (stepConnect initState 4 (some "dv")) "TS",
    h.2.2.2 (stepConnect initState 4 (some "dv")) "TS"
      { ws := 4, deviceId := "dv", userId := none } rfl⟩
